import Mathlib

/-!
# Verification of the twitch-screenshot-organizer classifier and relocator

Shallow embedding of `src/main.rs`.  Rust strings are modelled as `List Char`
(Unicode scalar values, matching `str::chars`); `str::split(c)` and
`[&str]::join` are modelled by `splitOnChar` and `joinParts`; fallible or
panicking code returns `Option`.
-/

set_option autoImplicit false

namespace TwitchOrganizer

/-- Model of Rust `str::split(c)`: splits into the (always nonempty) list of
substrings separated by occurrences of `c`. -/
def splitOnChar (c : Char) : List Char → List (List Char)
  | [] => [[]]
  | x :: xs =>
    let r := splitOnChar c xs
    if x = c then [] :: r else (x :: r.headD []) :: r.tail

/-- Model of Rust `[&str]::join(c)` for a one-character separator. -/
def joinParts (c : Char) : List (List Char) → List Char
  | [] => []
  | [p] => p
  | p :: q :: ps => p ++ c :: joinParts c (q :: ps)

/-- Model of Rust `str::len()`: the length in UTF-8 bytes (not in
characters). -/
def strLen (s : List Char) : Nat := (s.map Char.utf8Size).sum

/-- Model of Rust `str::ends_with(suffix)`. -/
def endsWithStr (suffix s : List Char) : Bool := suffix.isSuffixOf s

/-- Model of Rust `str::strip_suffix(suffix)`: `some` of the prefix when the
suffix matches, `none` otherwise. -/
def stripSuffixStr (suffix s : List Char) : Option (List Char) :=
  if suffix.isSuffixOf s then some (s.take (s.length - suffix.length)) else none

/-- The fixed image extension `".png"`. -/
def pngExt : List Char := ['.', 'p', 'n', 'g']

/-- Embedding of `is_screenshot` restricted to the filename string (the body
of the Rust function after `file_name().unwrap().to_str().expect(..)`
succeeded).  `none` models a panic; the unwraps inside the body are `Option`
binds. -/
def is_screenshot_name (filename : List Char) : Option Bool :=
  -- its a png
  if ¬ endsWithStr pngExt filename then some false
  else do
    -- remove png
    let fname ← stripSuffixStr pngExt filename
    -- that has three _
    let parts := splitOnChar '_' fname
    if parts.length < 5 then some false
    else
      let splits := parts.length
      -- -3 to end is time
      let time := joinParts '_' (parts.drop (splits - 3))
      -- -4 is date
      let date := (parts.drop (splits - 4)).headD []
      -- its of format Sat-Jan-18-2025
      if strLen date ≠ 15 ∨ (splitOnChar '-' date).length ≠ 4 then some false
      else do
        -- remove the possible duplicate number suffix like (1) or (2)
        let time ← (splitOnChar '(' time).head?
        -- this should look like 1_06_05-PM or 12_06_05-AM
        if (strLen time = 10 ∨ strLen time = 11) ∧ (splitOnChar '_' time).length ≠ 3
        then some false
        else some true

/-- Model of `std::path::Path` as used by this program: `parent?` is the
result of `Path::parent()` and `name?` the result of `Path::file_name()`,
where the inner `Option` is `OsStr::to_str()` (`none` = non-UTF-8 name). -/
inductive RPath : Type where
  | mk (parent? : Option RPath) (name? : Option (Option (List Char))) : RPath

/-- `Path::parent()`. -/
def RPath.parent? : RPath → Option RPath
  | .mk p _ => p

/-- `Path::file_name()` composed with `OsStr::to_str()` on the name. -/
def RPath.name? : RPath → Option (Option (List Char))
  | .mk _ n => n

/-- `Path::join(component)` for a plain single-component UTF-8 name, the only
shape this program joins: the result has the joined name as final component
and the original path as parent. -/
def RPath.joinName (p : RPath) (n : List Char) : RPath :=
  .mk (some p) (some (some n))

/-- Embedding of `is_screenshot(path)`.  `none` models a panic: the
`file_name().unwrap()` (no final component) and `to_str().expect("Invalid
filename")` (non-UTF-8 name) of the source. -/
def is_screenshot (path : RPath) : Option Bool := do
  let name ← path.name?
  let filename ← name
  is_screenshot_name filename

/-- Embedding of `channel_name(filename)`: split on `'_'` and rejoin all
parts but the last 4.  When there are fewer than 4 parts the Rust
`parts[0..parts.len() - 4]` panics (usize underflow / out-of-range slice),
modelled as `none`. -/
def channel_name (filename : List Char) : Option (List Char) :=
  let parts := splitOnChar '_' filename
  if parts.length < 4 then none
  else some (joinParts '_' (parts.take (parts.length - 4)))

/-- An abstract I/O error (`std::io::Error`). -/
structure IOErr : Type where
  code : Nat
deriving DecidableEq

/-- Oracle giving the outcome of each filesystem call `move_file` may make:
`none` is success, `some e` the I/O error. -/
structure FsOracle : Type where
  create_dir_all : RPath → Option IOErr
  rename : RPath → RPath → Option IOErr

/-- What `move_file` did on its success path: either the file was renamed
synchronously, or a detached thread was spawned that sleeps `delaySecs`
seconds and then renames `src` to `dst`. -/
inductive MoveAction : Type where
  | renamedOk (src dst : RPath) : MoveAction
  | spawnedTask (delaySecs : Nat) (src dst : RPath) : MoveAction

/-- The constant `SAVE_TO = "twitch-screenshots"`. -/
def SAVE_TO : List Char := "twitch-screenshots".data

/-- Embedding of `move_file(file_path, daemon_mode)`.  The outer `Option`
models the panics (`expect("File has no parent directory")` and the filename
unwraps); the `Except` is the `io::Result`; on success the `MoveAction`
records what happened.  In daemon mode the spawned thread's rename outcome
never reaches the result. -/
def move_file (fs : FsOracle) (file_path : RPath) (daemon_mode : Bool) :
    Option (Except IOErr MoveAction) := do
  let parent_dir ← file_path.parent?
  let name ← file_path.name?
  let fname ← name
  let cname ← channel_name fname
  let target_dir := (parent_dir.joinName SAVE_TO).joinName cname
  match fs.create_dir_all target_dir with
  | some e => some (.error e)
  | none =>
    let target_file_path := target_dir.joinName fname
    if daemon_mode then
      -- Move the file after 2s to ensure it's fully written when moving;
      -- a rename error in the spawned thread is logged, not propagated.
      some (.ok (.spawnedTask 2 file_path target_file_path))
    else
      match fs.rename file_path target_file_path with
      | some e => some (.error e)
      | none => some (.ok (.renamedOk file_path target_file_path))

/-- The body of the thread spawned by `move_file` in daemon mode, after its
sleep: it renames and only logs; `true` iff the success log line was emitted.
Its type shows no error escapes the thread. -/
def delayed_rename_logs_ok (fs : FsOracle) (src dst : RPath) : Bool :=
  (fs.rename src dst).isNone

/-! ## Observer functions

Named views of the intermediate values `is_screenshot` computes, used to
state claims.  They coincide with the classifier's internals whenever the
relevant guards hold (proved below). -/

/-- The filename with the final `".png"` removed (meaningful when the
filename ends with `".png"`). -/
def strippedOf (filename : List Char) : List Char :=
  filename.take (filename.length - pngExt.length)

/-- The underscore-separated segments of the extension-stripped filename. -/
def partsOf (filename : List Char) : List (List Char) :=
  splitOnChar '_' (strippedOf filename)

/-- The date token: the 4th-from-last segment. -/
def dateTokenOf (filename : List Char) : List Char :=
  ((partsOf filename).drop ((partsOf filename).length - 4)).headD []

/-- The time token: the last 3 segments rejoined with `'_'`. -/
def timeTokenOf (filename : List Char) : List Char :=
  joinParts '_' ((partsOf filename).drop ((partsOf filename).length - 3))

/-- The time token with any parenthesized duplicate suffix stripped. -/
def strippedTimeOf (filename : List Char) : List Char :=
  (splitOnChar '(' (timeTokenOf filename)).headD []

/-! ## Lemmas about `splitOnChar` and `joinParts` -/

theorem splitOnChar_cons (c x : Char) (xs : List Char) :
    splitOnChar c (x :: xs) =
      if x = c then [] :: splitOnChar c xs
      else (x :: (splitOnChar c xs).headD []) :: (splitOnChar c xs).tail := rfl

theorem splitOnChar_ne_nil (c : Char) (s : List Char) : splitOnChar c s ≠ [] := by
  cases s with
  | nil => simp [splitOnChar]
  | cons x xs =>
    rw [splitOnChar_cons]
    split <;> simp

theorem splitOnChar_of_not_mem {c : Char} {s : List Char} (h : c ∉ s) :
    splitOnChar c s = [s] := by
  induction s with
  | nil => rfl
  | cons x xs ih =>
    have hx : ¬ x = c := fun hh => h (hh ▸ List.mem_cons_self x xs)
    have hxs : c ∉ xs := fun hh => h (List.mem_cons_of_mem _ hh)
    rw [splitOnChar_cons, if_neg hx, ih hxs]
    rfl

theorem splitOnChar_append_cons (c : Char) (a b : List Char) :
    splitOnChar c (a ++ c :: b) = splitOnChar c a ++ splitOnChar c b := by
  induction a with
  | nil => simp [splitOnChar]
  | cons x xs ih =>
    by_cases hx : x = c
    · subst hx
      rw [List.cons_append, splitOnChar_cons, if_pos rfl, ih,
        splitOnChar_cons, if_pos rfl, List.cons_append]
    · rw [List.cons_append, splitOnChar_cons, if_neg hx, ih,
        splitOnChar_cons, if_neg hx]
      obtain ⟨h, t, hht⟩ := List.exists_cons_of_ne_nil (splitOnChar_ne_nil c xs)
      rw [hht]
      simp

theorem joinParts_cons₂ (c : Char) (p q : List Char) (ps : List (List Char)) :
    joinParts c (p :: q :: ps) = p ++ c :: joinParts c (q :: ps) := rfl

theorem joinParts_splitOnChar (c : Char) (s : List Char) :
    joinParts c (splitOnChar c s) = s := by
  induction s with
  | nil => rfl
  | cons x xs ih =>
    obtain ⟨h, t, hht⟩ := List.exists_cons_of_ne_nil (splitOnChar_ne_nil c xs)
    have hxs : joinParts c (h :: t) = xs := by rw [← hht]; exact ih
    by_cases hx : x = c
    · subst hx
      rw [splitOnChar_cons, if_pos rfl, hht, joinParts_cons₂, hxs]
      rfl
    · rw [splitOnChar_cons, if_neg hx, hht]
      cases t with
      | nil =>
        simp only [List.headD_cons, List.tail_cons, joinParts] at hxs ⊢
        rw [hxs]
      | cons u t' =>
        simp only [List.headD_cons, List.tail_cons, joinParts_cons₂] at hxs ⊢
        rw [← hxs]
        rfl

theorem splitOnChar_append_of_not_mem {c : Char} {b : List Char} (hb : c ∉ b)
    (a : List Char) :
    splitOnChar c (a ++ b) =
      (splitOnChar c a).dropLast ++ [(splitOnChar c a).getLastD [] ++ b] := by
  induction a with
  | nil => simp [splitOnChar, splitOnChar_of_not_mem hb]
  | cons x xs ih =>
    obtain ⟨h, t, hht⟩ := List.exists_cons_of_ne_nil (splitOnChar_ne_nil c xs)
    by_cases hx : x = c
    · subst hx
      rw [List.cons_append, splitOnChar_cons, if_pos rfl, ih,
        splitOnChar_cons, if_pos rfl, hht]
      cases t <;> simp
    · rw [List.cons_append, splitOnChar_cons, if_neg hx,
        splitOnChar_cons, if_neg hx, ih, hht]
      cases t with
      | nil => simp
      | cons u t' => simp

theorem splitOnChar_head? (c : Char) (s : List Char) :
    (splitOnChar c s).head? = some ((splitOnChar c s).headD []) := by
  obtain ⟨h, t, hht⟩ := List.exists_cons_of_ne_nil (splitOnChar_ne_nil c s)
  rw [hht]
  rfl

theorem stripSuffixStr_eq_of_suffix {suffix s : List Char}
    (h : suffix.isSuffixOf s = true) :
    stripSuffixStr suffix s = some (s.take (s.length - suffix.length)) := by
  rw [stripSuffixStr, if_pos h]

theorem stripSuffixStr_append (suffix s : List Char) :
    stripSuffixStr suffix (s ++ suffix) = some s := by
  rw [stripSuffixStr_eq_of_suffix
    (List.isSuffixOf_iff_suffix.mpr (List.suffix_append s suffix))]
  rw [List.length_append, Nat.add_sub_cancel, List.take_left]

theorem strippedOf_append (s : List Char) : strippedOf (s ++ pngExt) = s := by
  rw [strippedOf, List.length_append, Nat.add_sub_cancel, List.take_left]

/-- Characterization of the classifier on a filename ending in `".png"`,
phrased with the observer functions. -/
theorem is_screenshot_name_char {fn : List Char} (h : pngExt.isSuffixOf fn = true) :
    is_screenshot_name fn =
      if (partsOf fn).length < 5 then some false
      else if strLen (dateTokenOf fn) ≠ 15
              ∨ (splitOnChar '-' (dateTokenOf fn)).length ≠ 4 then some false
      else if (strLen (strippedTimeOf fn) = 10 ∨ strLen (strippedTimeOf fn) = 11)
              ∧ (splitOnChar '_' (strippedTimeOf fn)).length ≠ 3 then some false
      else some true := by
  rw [is_screenshot_name]
  rw [if_neg (by simp [endsWithStr, h])]
  rw [show stripSuffixStr pngExt fn = some (strippedOf fn) from
    stripSuffixStr_eq_of_suffix h]
  simp only [Option.bind_eq_bind, Option.some_bind]
  rw [partsOf]
  split
  · rfl
  · rw [dateTokenOf, partsOf]
    split
    · rfl
    · rw [splitOnChar_head?]
      simp only [Option.some_bind]
      rw [strippedTimeOf, timeTokenOf, partsOf]

/-- The classifier body never panics: it always returns a verdict. -/
theorem is_screenshot_name_isSome (fn : List Char) :
    (is_screenshot_name fn).isSome := by
  by_cases h : pngExt.isSuffixOf fn = true
  · rw [is_screenshot_name_char h]
    split
    · rfl
    · split
      · rfl
      · split <;> rfl
  · rw [is_screenshot_name, if_pos (by simp [endsWithStr, h])]
    rfl

/-! ## Structured filenames `channel_date_time.png` -/

theorem splitOnChar_structured {date : List Char} (channel time : List Char)
    (hdu : '_' ∉ date) :
    splitOnChar '_' (channel ++ '_' :: date ++ '_' :: time)
      = splitOnChar '_' channel ++ date :: splitOnChar '_' time := by
  rw [splitOnChar_append_cons, splitOnChar_append_cons, splitOnChar_of_not_mem hdu]
  simp

/-- A filename assembled as `channel ++ "_" ++ date ++ "_" ++ time ++ ".png"`
with a well-formed date and a 3-segment parenthesis-free time is accepted,
whatever the channel contains. -/
theorem accepts_structured (channel date time : List Char)
    (hdu : '_' ∉ date) (hd15 : strLen date = 15)
    (hd4 : (splitOnChar '-' date).length = 4)
    (ht3 : (splitOnChar '_' time).length = 3)
    (hpar : '(' ∉ time) :
    is_screenshot_name ((channel ++ '_' :: date ++ '_' :: time) ++ pngExt)
      = some true := by
  have hsuf : pngExt.isSuffixOf ((channel ++ '_' :: date ++ '_' :: time) ++ pngExt)
      = true :=
    List.isSuffixOf_iff_suffix.mpr (List.suffix_append _ _)
  have hparts : partsOf ((channel ++ '_' :: date ++ '_' :: time) ++ pngExt)
      = splitOnChar '_' channel ++ date :: splitOnChar '_' time := by
    rw [partsOf, strippedOf_append, splitOnChar_structured _ _ hdu]
  have h4 : (date :: splitOnChar '_' time).length = 4 := by simp [ht3]
  have hdate : dateTokenOf ((channel ++ '_' :: date ++ '_' :: time) ++ pngExt)
      = date := by
    rw [dateTokenOf, hparts, List.length_append, h4, Nat.add_sub_cancel,
      List.drop_left, List.headD_cons]
  have htime : timeTokenOf ((channel ++ '_' :: date ++ '_' :: time) ++ pngExt)
      = time := by
    rw [timeTokenOf, hparts, List.length_append, h4]
    have hl : (splitOnChar '_' channel).length + 4 - 3
        = (splitOnChar '_' channel ++ [date]).length := by
      simp
    have he : splitOnChar '_' channel ++ date :: splitOnChar '_' time
        = (splitOnChar '_' channel ++ [date]) ++ splitOnChar '_' time := by
      simp
    rw [hl, he, List.drop_left, joinParts_splitOnChar]
  have hstime : strippedTimeOf ((channel ++ '_' :: date ++ '_' :: time) ++ pngExt)
      = time := by
    rw [strippedTimeOf, htime, splitOnChar_of_not_mem hpar, List.headD_cons]
  have hchlen : 0 < (splitOnChar '_' channel).length :=
    List.length_pos.mpr (splitOnChar_ne_nil _ _)
  rw [is_screenshot_name_char hsuf]
  rw [if_neg (by rw [hparts, List.length_append, h4]; omega)]
  rw [if_neg (by rw [hdate, hd15, hd4]; simp)]
  rw [if_neg (by rw [hstime, ht3]; simp)]

/-- `channel_name` applied to the full filename (extension included) of a
structured screenshot name recovers the channel exactly. -/
theorem channel_name_structured (channel date time : List Char)
    (hdu : '_' ∉ date) (ht3 : (splitOnChar '_' time).length = 3) :
    channel_name ((channel ++ '_' :: date ++ '_' :: time) ++ pngExt)
      = some channel := by
  have hassoc : (channel ++ '_' :: date ++ '_' :: time) ++ pngExt
      = channel ++ '_' :: date ++ '_' :: (time ++ pngExt) := by
    simp
  have hpng : '_' ∉ pngExt := by decide
  obtain ⟨h, t, hht⟩ := List.exists_cons_of_ne_nil (splitOnChar_ne_nil '_' time)
  have hparts : splitOnChar '_' ((channel ++ '_' :: date ++ '_' :: time) ++ pngExt)
      = splitOnChar '_' channel
        ++ date :: ((splitOnChar '_' time).dropLast
          ++ [(splitOnChar '_' time).getLastD [] ++ pngExt]) := by
    rw [hassoc, splitOnChar_structured _ _ hdu,
      splitOnChar_append_of_not_mem hpng]
  have hlen : (splitOnChar '_' channel
        ++ date :: ((splitOnChar '_' time).dropLast
          ++ [(splitOnChar '_' time).getLastD [] ++ pngExt])).length
      = (splitOnChar '_' channel).length + 4 := by
    simp [List.length_dropLast, ht3]
  rw [channel_name]
  simp only [hparts, hlen]
  rw [if_neg (by omega)]
  rw [Nat.add_sub_cancel, List.take_left, joinParts_splitOnChar]

/-! ## Rejection lemmas -/

theorem is_screenshot_mk (par : Option RPath) (fn : List Char) :
    is_screenshot (RPath.mk par (some (some fn))) = is_screenshot_name fn := rfl

theorem rejected_of_not_png {fn : List Char} (h : pngExt.isSuffixOf fn = false) :
    is_screenshot_name fn = some false := by
  rw [is_screenshot_name, if_pos (by simp [endsWithStr, h])]

theorem rejected_of_short {fn : List Char} (h : (partsOf fn).length < 5) :
    is_screenshot_name fn = some false := by
  cases hsuf : pngExt.isSuffixOf fn with
  | false => exact rejected_of_not_png hsuf
  | true => rw [is_screenshot_name_char hsuf, if_pos h]

theorem rejected_of_bad_date {fn : List Char}
    (h : strLen (dateTokenOf fn) ≠ 15
      ∨ (splitOnChar '-' (dateTokenOf fn)).length ≠ 4) :
    is_screenshot_name fn = some false := by
  cases hsuf : pngExt.isSuffixOf fn with
  | false => exact rejected_of_not_png hsuf
  | true =>
    rw [is_screenshot_name_char hsuf]
    by_cases h5 : (partsOf fn).length < 5
    · rw [if_pos h5]
    · rw [if_neg h5, if_pos h]

theorem rejected_of_bad_time {fn : List Char}
    (h : (strLen (strippedTimeOf fn) = 10 ∨ strLen (strippedTimeOf fn) = 11)
      ∧ (splitOnChar '_' (strippedTimeOf fn)).length ≠ 3) :
    is_screenshot_name fn = some false := by
  cases hsuf : pngExt.isSuffixOf fn with
  | false => exact rejected_of_not_png hsuf
  | true =>
    rw [is_screenshot_name_char hsuf]
    by_cases h5 : (partsOf fn).length < 5
    · rw [if_pos h5]
    · rw [if_neg h5]
      by_cases hd : strLen (dateTokenOf fn) ≠ 15
          ∨ (splitOnChar '-' (dateTokenOf fn)).length ≠ 4
      · rw [if_pos hd]
      · rw [if_neg hd, if_pos h]

/-! ## Claim theorems -/

/-- C1: every filename of the exact form
`channel_Sat-Jan-18-2025_1_06_05-PM.png` — a delimiter-free channel segment,
a delimiter-free 15-character date token splitting into 4 parts on `'-'`, and
a parenthesis-free time token of 3 underscore-separated segments with total
length 10 or 11, followed by `".png"` — is classified as a screenshot. -/
theorem claim_C1_exact_form_accepted (par : Option RPath)
    (channel date time : List Char)
    (hc : '_' ∉ channel) (hdu : '_' ∉ date)
    (hd15 : strLen date = 15) (hd4 : (splitOnChar '-' date).length = 4)
    (ht3 : (splitOnChar '_' time).length = 3)
    (htl : strLen time = 10 ∨ strLen time = 11) (hpar : '(' ∉ time) :
    is_screenshot (RPath.mk par (some (some
      ((channel ++ '_' :: date ++ '_' :: time) ++ pngExt)))) = some true := by
  rw [is_screenshot_mk]
  exact accepts_structured channel date time hdu hd15 hd4 ht3 hpar

theorem claim_C1_witness :
    is_screenshot (RPath.mk none (some (some
      (("channel".data ++ '_' :: "Sat-Jan-18-2025".data ++ '_' :: "1_06_05-PM".data)
        ++ pngExt)))) = some true :=
  claim_C1_exact_form_accepted none "channel".data "Sat-Jan-18-2025".data
    "1_06_05-PM".data (by decide) (by decide) (by decide) (by decide) (by decide)
    (by decide) (by decide)

/-- C2: the 3-parts-on-underscore format check applies only when the stripped
time token's length is exactly 10 or 11; any other length skips it, so the
filename is classified `true` once the extension, segment-count and
date-token checks pass. -/
theorem claim_C2_time_check_skipped (par : Option RPath) (fn : List Char)
    (hext : pngExt.isSuffixOf fn = true)
    (hseg : ¬ (partsOf fn).length < 5)
    (hd15 : strLen (dateTokenOf fn) = 15)
    (hd4 : (splitOnChar '-' (dateTokenOf fn)).length = 4)
    (h10 : strLen (strippedTimeOf fn) ≠ 10)
    (h11 : strLen (strippedTimeOf fn) ≠ 11) :
    is_screenshot (RPath.mk par (some (some fn))) = some true := by
  rw [is_screenshot_mk, is_screenshot_name_char hext, if_neg hseg,
    if_neg (by rw [hd15, hd4]; simp),
    if_neg (fun hcon => hcon.1.elim h10 h11)]

theorem claim_C2_witness :
    is_screenshot (RPath.mk none (some (some
      "ch_Sat-Jan-18-2025_1_2_3-PM.png".data))) = some true :=
  claim_C2_time_check_skipped none "ch_Sat-Jan-18-2025_1_2_3-PM.png".data
    (by decide) (by decide) (by decide) (by decide) (by decide) (by decide)

/-- C3: a filename whose channel identifier itself contains the primary
delimiter is still classified `true`, and `channel_name` recovers exactly the
channel identifier (all segments except the last 4, rejoined with `'_'`). -/
theorem claim_C3_channel_with_delimiter (par : Option RPath)
    (channel date time : List Char)
    (hch : '_' ∈ channel) (hdu : '_' ∉ date)
    (hd15 : strLen date = 15) (hd4 : (splitOnChar '-' date).length = 4)
    (ht3 : (splitOnChar '_' time).length = 3) (hpar : '(' ∉ time) :
    is_screenshot (RPath.mk par (some (some
      ((channel ++ '_' :: date ++ '_' :: time) ++ pngExt)))) = some true
    ∧ channel_name ((channel ++ '_' :: date ++ '_' :: time) ++ pngExt)
      = some channel := by
  constructor
  · rw [is_screenshot_mk]
    exact accepts_structured channel date time hdu hd15 hd4 ht3 hpar
  · exact channel_name_structured channel date time hdu ht3

theorem claim_C3_witness :
    is_screenshot (RPath.mk none (some (some
      (("my_channel_name".data ++ '_' :: "Sat-Jan-18-2025".data
        ++ '_' :: "1_06_05-PM".data) ++ pngExt)))) = some true
    ∧ channel_name (("my_channel_name".data ++ '_' :: "Sat-Jan-18-2025".data
        ++ '_' :: "1_06_05-PM".data) ++ pngExt) = some "my_channel_name".data :=
  claim_C3_channel_with_delimiter none "my_channel_name".data
    "Sat-Jan-18-2025".data "1_06_05-PM".data (by decide) (by decide) (by decide)
    (by decide) (by decide) (by decide)

/-- C4: every filename not ending in `".png"` (in particular one with no
extension) is rejected, and so is every filename with fewer than 5
underscore-separated segments, a malformed date token, or a malformed time
token — always with a verdict, never a panic. -/
theorem claim_C4_rejections_no_panic (par : Option RPath) (fn : List Char) :
    (∃ b, is_screenshot (RPath.mk par (some (some fn))) = some b)
    ∧ (pngExt.isSuffixOf fn = false →
        is_screenshot (RPath.mk par (some (some fn))) = some false)
    ∧ ((partsOf fn).length < 5 →
        is_screenshot (RPath.mk par (some (some fn))) = some false)
    ∧ (strLen (dateTokenOf fn) ≠ 15
          ∨ (splitOnChar '-' (dateTokenOf fn)).length ≠ 4 →
        is_screenshot (RPath.mk par (some (some fn))) = some false)
    ∧ ((strLen (strippedTimeOf fn) = 10 ∨ strLen (strippedTimeOf fn) = 11)
          ∧ (splitOnChar '_' (strippedTimeOf fn)).length ≠ 3 →
        is_screenshot (RPath.mk par (some (some fn))) = some false) := by
  rw [is_screenshot_mk]
  exact ⟨Option.isSome_iff_exists.mp (is_screenshot_name_isSome fn),
    rejected_of_not_png, rejected_of_short, rejected_of_bad_date,
    rejected_of_bad_time⟩

theorem claim_C4_witness :
    is_screenshot (RPath.mk none (some (some "noextension".data))) = some false
    ∧ is_screenshot (RPath.mk none (some (some "a_b.png".data))) = some false
    ∧ is_screenshot (RPath.mk none (some (some
        "my_channel_Sat-Jan-18-202_1_06_05-PM.png".data))) = some false
    ∧ is_screenshot (RPath.mk none (some (some
        "ch_Sat-Jan-18-2025_abcdefghij(_06_05.png".data))) = some false :=
  ⟨(claim_C4_rejections_no_panic none _).2.1 (by decide),
    (claim_C4_rejections_no_panic none _).2.2.1 (by decide),
    (claim_C4_rejections_no_panic none _).2.2.2.1 (by decide),
    (claim_C4_rejections_no_panic none _).2.2.2.2 (by decide)⟩

/-- C5: a filename whose date token (the 4th-from-last segment of the
extension-stripped name) is not exactly 15 characters long, or does not split
into exactly 4 parts on `'-'`, is rejected. -/
theorem claim_C5_bad_date_rejected (par : Option RPath) (fn : List Char)
    (h : strLen (dateTokenOf fn) ≠ 15
      ∨ (splitOnChar '-' (dateTokenOf fn)).length ≠ 4) :
    is_screenshot (RPath.mk par (some (some fn))) = some false := by
  rw [is_screenshot_mk]
  exact rejected_of_bad_date h

theorem claim_C5_witness :
    is_screenshot (RPath.mk none (some (some
      "channel_Sat-Jan-2025_1_06_05-PM.png".data))) = some false :=
  claim_C5_bad_date_rejected none _ (by decide)

/-- Unfolding of `move_file` when the path has a parent, a UTF-8 filename and
enough segments for `channel_name`. -/
theorem move_file_eq (fs : FsOracle) (p par : RPath) (fn c : List Char)
    (hp : p.parent? = some par) (hn : p.name? = some (some fn))
    (hcn : channel_name fn = some c) (d : Bool) :
    move_file fs p d =
      match fs.create_dir_all ((par.joinName SAVE_TO).joinName c) with
      | some e => some (Except.error e)
      | none =>
        if d then
          some (Except.ok (MoveAction.spawnedTask 2 p
            (((par.joinName SAVE_TO).joinName c).joinName fn)))
        else
          match fs.rename p (((par.joinName SAVE_TO).joinName c).joinName fn) with
          | some e => some (Except.error e)
          | none => some (Except.ok (MoveAction.renamedOk p
              (((par.joinName SAVE_TO).joinName c).joinName fn))) := by
  rw [move_file, hp, hn]
  simp only [Option.bind_eq_bind, Option.some_bind]
  rw [hcn]
  simp only [Option.some_bind]

/-- C6: `move_file` computes the destination
`<parent of source>/twitch-screenshots/<channel>/<original filename>` with
the filename preserved byte-for-byte, in both modes; and the
duplicate-suffixed name `channel_Sat-Jan-18-2025_1_06_05-PM(1).png` is
classified `true` with its parenthesized suffix verbatim in the destination
path. -/
theorem claim_C6_destination_layout :
    (∀ (fs : FsOracle) (p par : RPath) (fn c : List Char),
      p.parent? = some par → p.name? = some (some fn) →
      is_screenshot_name fn = some true → channel_name fn = some c →
      fs.create_dir_all ((par.joinName SAVE_TO).joinName c) = none →
        ((((par.joinName SAVE_TO).joinName c).joinName fn).name? = some (some fn)
        ∧ (((par.joinName SAVE_TO).joinName c).joinName fn).parent?
            = some ((par.joinName SAVE_TO).joinName c)
        ∧ ((par.joinName SAVE_TO).joinName c).parent? = some (par.joinName SAVE_TO)
        ∧ (par.joinName SAVE_TO).name? = some (some SAVE_TO)
        ∧ move_file fs p true = some (Except.ok (MoveAction.spawnedTask 2 p
            (((par.joinName SAVE_TO).joinName c).joinName fn)))
        ∧ (fs.rename p (((par.joinName SAVE_TO).joinName c).joinName fn) = none →
            move_file fs p false = some (Except.ok (MoveAction.renamedOk p
              (((par.joinName SAVE_TO).joinName c).joinName fn))))))
    ∧ is_screenshot_name "channel_Sat-Jan-18-2025_1_06_05-PM(1).png".data = some true
    ∧ channel_name "channel_Sat-Jan-18-2025_1_06_05-PM(1).png".data
        = some "channel".data := by
  refine ⟨fun fs p par fn c hp hn _ hcn hmk => ?_, by decide, by decide⟩
  refine ⟨rfl, rfl, rfl, rfl, ?_, fun hr => ?_⟩
  · rw [move_file_eq fs p par fn c hp hn hcn true, hmk]
    rfl
  · rw [move_file_eq fs p par fn c hp hn hcn false, hmk]
    simp [hr]

theorem claim_C6_witness :
    ((((RPath.mk none none).joinName SAVE_TO).joinName
        "channel".data).joinName
        "channel_Sat-Jan-18-2025_1_06_05-PM(1).png".data).name?
      = some (some "channel_Sat-Jan-18-2025_1_06_05-PM(1).png".data)
    ∧ (((((RPath.mk none none).joinName SAVE_TO).joinName
        "channel".data).joinName
        "channel_Sat-Jan-18-2025_1_06_05-PM(1).png".data).parent?
      = some (((RPath.mk none none).joinName SAVE_TO).joinName "channel".data))
    ∧ ((((RPath.mk none none).joinName SAVE_TO).joinName
        "channel".data).parent? = some ((RPath.mk none none).joinName SAVE_TO))
    ∧ (((RPath.mk none none).joinName SAVE_TO).name? = some (some SAVE_TO))
    ∧ move_file (FsOracle.mk (fun _ => none) (fun _ _ => none))
        (RPath.mk (some (RPath.mk none none))
          (some (some "channel_Sat-Jan-18-2025_1_06_05-PM(1).png".data))) true
      = some (Except.ok (MoveAction.spawnedTask 2
          (RPath.mk (some (RPath.mk none none))
            (some (some "channel_Sat-Jan-18-2025_1_06_05-PM(1).png".data)))
          ((((RPath.mk none none).joinName SAVE_TO).joinName
            "channel".data).joinName
            "channel_Sat-Jan-18-2025_1_06_05-PM(1).png".data)))
    ∧ (FsOracle.rename (FsOracle.mk (fun _ => none) (fun _ _ => none))
          (RPath.mk (some (RPath.mk none none))
            (some (some "channel_Sat-Jan-18-2025_1_06_05-PM(1).png".data)))
          ((((RPath.mk none none).joinName SAVE_TO).joinName
            "channel".data).joinName
            "channel_Sat-Jan-18-2025_1_06_05-PM(1).png".data) = none →
        move_file (FsOracle.mk (fun _ => none) (fun _ _ => none))
          (RPath.mk (some (RPath.mk none none))
            (some (some "channel_Sat-Jan-18-2025_1_06_05-PM(1).png".data))) false
        = some (Except.ok (MoveAction.renamedOk
            (RPath.mk (some (RPath.mk none none))
              (some (some "channel_Sat-Jan-18-2025_1_06_05-PM(1).png".data)))
            ((((RPath.mk none none).joinName SAVE_TO).joinName
              "channel".data).joinName
              "channel_Sat-Jan-18-2025_1_06_05-PM(1).png".data)))) :=
  claim_C6_destination_layout.1 (FsOracle.mk (fun _ => none) (fun _ _ => none))
    (RPath.mk (some (RPath.mk none none))
      (some (some "channel_Sat-Jan-18-2025_1_06_05-PM(1).png".data)))
    (RPath.mk none none) "channel_Sat-Jan-18-2025_1_06_05-PM(1).png".data
    "channel".data rfl rfl (by decide) (by decide) rfl

/-- C7: with `delayed = false` the rename is synchronous and its I/O error is
propagated in the result; with `delayed = true` a task sleeping 2 seconds
before the rename is spawned, the result is independent of the rename oracle
and can only be the destination-directory-creation error, and the spawned
task's rename failure surfaces only as a log flag. -/
theorem claim_C7_delayed_vs_sync (fs fs' : FsOracle) (p par : RPath)
    (fn c : List Char)
    (hp : p.parent? = some par) (hn : p.name? = some (some fn))
    (hcn : channel_name fn = some c)
    (hfs : fs.create_dir_all = fs'.create_dir_all) :
    move_file fs p true = move_file fs' p true
    ∧ (∀ e, move_file fs p true = some (Except.error e)
        ↔ fs.create_dir_all ((par.joinName SAVE_TO).joinName c) = some e)
    ∧ (fs.create_dir_all ((par.joinName SAVE_TO).joinName c) = none →
        move_file fs p true = some (Except.ok (MoveAction.spawnedTask 2 p
          (((par.joinName SAVE_TO).joinName c).joinName fn))))
    ∧ (fs.create_dir_all ((par.joinName SAVE_TO).joinName c) = none →
        ∀ e, fs.rename p (((par.joinName SAVE_TO).joinName c).joinName fn) = some e →
          move_file fs p false = some (Except.error e))
    ∧ (fs.create_dir_all ((par.joinName SAVE_TO).joinName c) = none →
        fs.rename p (((par.joinName SAVE_TO).joinName c).joinName fn) = none →
          move_file fs p false = some (Except.ok (MoveAction.renamedOk p
            (((par.joinName SAVE_TO).joinName c).joinName fn))))
    ∧ (∀ e, fs.rename p (((par.joinName SAVE_TO).joinName c).joinName fn) = some e →
        delayed_rename_logs_ok fs p (((par.joinName SAVE_TO).joinName c).joinName fn)
          = false) := by
  refine ⟨?_, fun e => ?_, fun hok => ?_, fun hok e he => ?_, fun hok hr => ?_,
    fun e he => ?_⟩
  · rw [move_file_eq fs p par fn c hp hn hcn true,
      move_file_eq fs' p par fn c hp hn hcn true, hfs]
    cases fs'.create_dir_all ((par.joinName SAVE_TO).joinName c) <;> simp
  · rw [move_file_eq fs p par fn c hp hn hcn true]
    cases hcd : fs.create_dir_all ((par.joinName SAVE_TO).joinName c) <;> simp
  · rw [move_file_eq fs p par fn c hp hn hcn true, hok]
    rfl
  · rw [move_file_eq fs p par fn c hp hn hcn false, hok]
    simp [he]
  · rw [move_file_eq fs p par fn c hp hn hcn false, hok]
    simp [hr]
  · rw [delayed_rename_logs_ok, he]
    rfl

theorem claim_C7_witness :
    move_file (FsOracle.mk (fun _ => none) (fun _ _ => none))
        (RPath.mk (some (RPath.mk none none)) (some (some "a_b_c_d_e.png".data)))
        true
      = move_file (FsOracle.mk (fun _ => none) (fun _ _ => some (IOErr.mk 9)))
        (RPath.mk (some (RPath.mk none none)) (some (some "a_b_c_d_e.png".data)))
        true
    ∧ move_file (FsOracle.mk (fun _ => none) (fun _ _ => some (IOErr.mk 9)))
        (RPath.mk (some (RPath.mk none none)) (some (some "a_b_c_d_e.png".data)))
        false
      = some (Except.error (IOErr.mk 9)) :=
  ⟨(claim_C7_delayed_vs_sync (FsOracle.mk (fun _ => none) (fun _ _ => none))
      (FsOracle.mk (fun _ => none) (fun _ _ => some (IOErr.mk 9)))
      (RPath.mk (some (RPath.mk none none)) (some (some "a_b_c_d_e.png".data)))
      (RPath.mk none none) "a_b_c_d_e.png".data "a".data rfl rfl (by decide)
      rfl).1,
    (claim_C7_delayed_vs_sync (FsOracle.mk (fun _ => none) (fun _ _ => some (IOErr.mk 9)))
      (FsOracle.mk (fun _ => none) (fun _ _ => some (IOErr.mk 9)))
      (RPath.mk (some (RPath.mk none none)) (some (some "a_b_c_d_e.png".data)))
      (RPath.mk none none) "a_b_c_d_e.png".data "a".data rfl rfl (by decide)
      rfl).2.2.2.1 rfl (IOErr.mk 9) rfl⟩

/-- C8: the classifier returns a verdict exactly when the path has a final
component that is valid UTF-8; a path with no final component, or with a
non-UTF-8 filename, makes it panic (`none`) instead of returning `false`. -/
theorem claim_C8_panics_on_bad_paths (p : RPath) :
    (∀ fn, p.name? = some (some fn) → ∃ b, is_screenshot p = some b)
    ∧ (p.name? = none → is_screenshot p = none)
    ∧ (p.name? = some none → is_screenshot p = none) := by
  refine ⟨fun fn hfn => ?_, fun h => ?_, fun h => ?_⟩
  · rw [is_screenshot, hfn]
    simp only [Option.bind_eq_bind, Option.some_bind]
    exact Option.isSome_iff_exists.mp (is_screenshot_name_isSome fn)
  · rw [is_screenshot, h]
    rfl
  · rw [is_screenshot, h]
    rfl

theorem claim_C8_witness :
    is_screenshot (RPath.mk none none) = none
    ∧ is_screenshot (RPath.mk none (some none)) = none :=
  ⟨(claim_C8_panics_on_bad_paths (RPath.mk none none)).2.1 rfl,
    (claim_C8_panics_on_bad_paths (RPath.mk none (some none))).2.2 rfl⟩

/-- C10: the verdict is a function of the final filename component alone —
two paths with equal filename components, whatever their parents, get the
same verdict. -/
theorem claim_C10_filename_determines_verdict (p q : RPath) (fn : List Char)
    (hp : p.name? = some (some fn)) (hq : q.name? = some (some fn)) :
    is_screenshot p = is_screenshot q := by
  rw [is_screenshot, is_screenshot, hp, hq]

theorem claim_C10_witness :
    is_screenshot (RPath.mk none (some (some "x_y.png".data)))
      = is_screenshot (RPath.mk (some (RPath.mk none (some (some "d".data))))
          (some (some "x_y.png".data))) :=
  claim_C10_filename_determines_verdict _ _ "x_y.png".data rfl rfl

/-- The channel as the Classifier's segmentation sees it (spec-side view for
the refinement claim): all but the last 4 underscore-segments of the
extension-stripped name, rejoined with `'_'`. -/
def classifier_channel (fn : List Char) : List Char :=
  joinParts '_' ((partsOf fn).take ((partsOf fn).length - 4))

/-- C9: `move_file` derives the channel from the full filename (extension
included) while the Classifier segments the extension-stripped name; on
every accepted filename the two computations agree, because `".png"`
contains no `'_'` and lies entirely in the always-discarded last segment. -/
theorem claim_C9_channel_agreement (fn : List Char)
    (h : is_screenshot_name fn = some true) :
    channel_name fn = some (classifier_channel fn) := by
  cases hsuf : pngExt.isSuffixOf fn with
  | false =>
    rw [rejected_of_not_png hsuf] at h
    exact absurd h (by simp)
  | true =>
    have h5 : ¬ (partsOf fn).length < 5 := by
      intro hlt
      rw [rejected_of_short hlt] at h
      exact absurd h (by simp)
    obtain ⟨pre, hpre⟩ := List.isSuffixOf_iff_suffix.mp hsuf
    have hstr : strippedOf fn = pre := by rw [← hpre, strippedOf_append]
    have hparts : partsOf fn = splitOnChar '_' pre := by rw [partsOf, hstr]
    have hpng : '_' ∉ pngExt := by decide
    obtain ⟨ph, pt, hpht⟩ := List.exists_cons_of_ne_nil (splitOnChar_ne_nil '_' pre)
    have hfull : splitOnChar '_' fn
        = (splitOnChar '_' pre).dropLast
          ++ [(splitOnChar '_' pre).getLastD [] ++ pngExt] := by
      rw [← hpre, splitOnChar_append_of_not_mem hpng]
    have hlen : ((splitOnChar '_' pre).dropLast
          ++ [(splitOnChar '_' pre).getLastD [] ++ pngExt]).length
        = (splitOnChar '_' pre).length := by
      rw [List.length_append, List.length_dropLast, hpht]
      simp
    have hn5 : 5 ≤ (splitOnChar '_' pre).length := by
      rw [hparts] at h5
      omega
    rw [channel_name]
    simp only [hfull, hlen]
    rw [if_neg (by omega)]
    rw [List.take_append_of_le_length (by rw [List.length_dropLast]; omega)]
    rw [List.dropLast_eq_take, List.take_take]
    have hmin : ((splitOnChar '_' pre).length - 4) ⊓ ((splitOnChar '_' pre).length - 1)
        = (splitOnChar '_' pre).length - 4 := by
      omega
    rw [hmin, classifier_channel, hparts]

theorem claim_C9_witness :
    channel_name "channel_Sat-Jan-18-2025_1_06_05-PM.png".data
      = some (classifier_channel "channel_Sat-Jan-18-2025_1_06_05-PM.png".data) :=
  claim_C9_channel_agreement "channel_Sat-Jan-18-2025_1_06_05-PM.png".data
    (by decide)

/-! ## Sanity checks on concrete filenames -/

example : is_screenshot_name "channel_Sat-Jan-18-2025_1_06_05-PM.png".data = some true := by decide
example : is_screenshot_name "channel_Sat-Jan-18-2025_1_06_05-PM(1).png".data = some true := by decide
example : is_screenshot_name "channel.txt".data = some false := by decide
example : is_screenshot_name "my_channel_name_Sat-Jan-18-2025_1_06_05-PM.png".data = some true := by decide
example : is_screenshot_name "a_b.png".data = some false := by decide
example : is_screenshot_name "ch_Sat-Jan-18-202X_1_06_05-PM.png".data = some true := by decide
example : channel_name "my_channel_name_Sat-Jan-18-2025_1_06_05-PM.png".data
    = some "my_channel_name".data := by decide
example : strippedTimeOf "channel_Sat-Jan-18-2025_1_06_05-PM(1).png".data
    = "1_06_05-PM".data := by decide

end TwitchOrganizer
